import Mathlib

/-
Verification of the aidiff issue-extraction pipeline.

Python strings are modelled as `List Char` (`Str`).  Each definition below
is a direct translation of a function from the repository source; the file
then proves or refutes the specification's claims about them.
-/

set_option maxRecDepth 4000

/-- Python strings, modelled as lists of characters. -/
abbrev Str := List Char

/-- Convert a Lean string literal to the `Str` model. -/
def s2c (s : String) : Str := s.toList

/-- ASCII whitespace recognised by Python's `str.strip` (space, tab, LF, CR, VT, FF). -/
def isPySpace (c : Char) : Bool :=
  c.toNat == 32 || c.toNat == 9 || c.toNat == 10 || c.toNat == 13 ||
  c.toNat == 11 || c.toNat == 12

/-- ASCII decimal digit, as used by Python's `str.isdigit` on ASCII input. -/
def isDigitC (c : Char) : Bool := 48 ≤ c.toNat && c.toNat ≤ 57

/-- ASCII letter. -/
def isAlphaC (c : Char) : Bool :=
  (65 ≤ c.toNat && c.toNat ≤ 90) || (97 ≤ c.toNat && c.toNat ≤ 122)

/-- ASCII lower-case letter. -/
def isLowerAlphaC (c : Char) : Bool := 97 ≤ c.toNat && c.toNat ≤ 122

/-- ASCII letter or digit (the regex class `[a-zA-Z0-9]`). -/
def isAlnumC (c : Char) : Bool := isAlphaC c || isDigitC c

/-- Python `str.lstrip()`. -/
def pyLstrip (s : Str) : Str := s.dropWhile isPySpace

/-- Python `str.strip()`. -/
def pyStrip (s : Str) : Str :=
  ((s.dropWhile isPySpace).reverse.dropWhile isPySpace).reverse

/-- Python `str.lower()` on ASCII input. -/
def pyLower (s : Str) : Str := s.map Char.toLower

/-- Does `s` start with `p` (Python `str.startswith`)? -/
def startsWithB : Str → Str → Bool
  | _, [] => true
  | [], _ :: _ => false
  | c :: cs, p :: ps => c == p && startsWithB cs ps

/-- Does `s` end with `p` (Python `str.endswith`)? -/
def endsWithB (s p : Str) : Bool := startsWithB s.reverse p.reverse

/-- Substring containment (Python's `pat in s`). -/
def containsStr : Str → Str → Bool
  | [], pat => pat.isEmpty
  | s@(_ :: rest), pat => startsWithB s pat || containsStr rest pat

/-- Python `str.split(sep)` for a single-character separator: keeps empty pieces. -/
def splitOnChar (sep : Char) : Str → List Str
  | [] => [[]]
  | c :: rest =>
    if c == sep then [] :: splitOnChar sep rest
    else
      match splitOnChar sep rest with
      | [] => [[c]]
      | h :: t => (c :: h) :: t

/-- Decimal value of a digit string (most significant digit first). -/
def digitsVal (s : Str) : Nat := s.foldl (fun acc c => acc * 10 + (c.toNat - 48)) 0

/-- No two adjacent underscores (part of Python's `int()` literal grammar). -/
def noDoubleUnderscore : Str → Bool
  | [] => true
  | [_] => true
  | a :: b :: rest => !(a == '_' && b == '_') && noDoubleUnderscore (b :: rest)

/-- The unsigned part of Python's `int()` grammar: a non-empty digit string,
optionally with single underscores strictly between digits. -/
def pyDigits (t : Str) : Option Nat :=
  if !t.isEmpty && isDigitC (t.headD ' ') && isDigitC (t.getLastD ' ')
      && t.all (fun c => isDigitC c || c == '_') && noDoubleUnderscore t
  then some (digitsVal (t.filter isDigitC)) else none

/-- Sign handling of Python's `int()` on already-stripped input. -/
def pyIntCore : Str → Option Int
  | [] => none
  | c :: rest =>
    if c == '+' then (pyDigits rest).map Int.ofNat
    else if c == '-' then (pyDigits rest).map (fun n => -(Int.ofNat n))
    else (pyDigits (c :: rest)).map Int.ofNat

/-- Python `int(s)`: strip whitespace, optional sign, decimal digits
(with underscore separators); `none` models a raised `ValueError`. -/
def pyInt (s : Str) : Option Int := pyIntCore (pyStrip s)

/-- Digits of a natural number (fuel-based helper for `pyStrNat`). -/
def natDigitsAux : Nat → Nat → Str
  | 0, _ => []
  | fuel + 1, n =>
    if n < 10 then [Char.ofNat (48 + n)]
    else natDigitsAux fuel (n / 10) ++ [Char.ofNat (48 + n % 10)]

/-- Python `str(n)` for a natural number. -/
def pyStrNat (n : Nat) : Str := natDigitsAux (n + 1) n

/-- Python `str(i)` for an integer. -/
def pyStrInt (i : Int) : Str :=
  if i < 0 then '-' :: pyStrNat (-i).toNat else pyStrNat i.toNat

/-- Python `list(range(a, b))` over integers. -/
def pyRange (a b : Int) : List Int :=
  (List.range (b - a).toNat).map (fun i : Nat => a + (i : Int))

/-
==== dto.py: value parsers ====
-/

/-- `dto.parse_confidence`: strip `%` signs and whitespace, parse an integer,
clamp to [0, 100]; empty or unparseable input yields the default 50. -/
def parse_confidence (s : Str) : Int :=
  if s.isEmpty then 50
  else
    match pyInt (pyStrip (s.filter (fun c => !(c == '%')))) with
    | some n => max 0 (min 100 n)
    | none => 50

/-- The comma-list and single-number tail of `dto.parse_line_numbers`
(the code reached when the `a-b` range form does not apply): a comma list
keeps the pieces whose stripped form is a non-empty digit string
(`x.strip().isdigit()`); otherwise a whole digit string gives a singleton;
otherwise `[]`. -/
def lineNumbersRest (t : Str) : List Int :=
  if t.contains ',' then
    ((splitOnChar ',' t).filter
      (fun x => !(pyStrip x).isEmpty && (pyStrip x).all isDigitC)).map
      (fun x => Int.ofNat (digitsVal (pyStrip x)))
  else if !t.isEmpty && t.all isDigitC then [Int.ofNat (digitsVal t)]
  else []

/-- `dto.parse_line_numbers`: empty input gives `[]`; `a-b` (not starting
with `-`, exactly one inner `-`) expands via `range(start, end + 1)`; an
`int()` failure there is caught and gives `[]`; otherwise the comma-list
and single-number forms apply. -/
def parse_line_numbers (s : Str) : List Int :=
  if s.isEmpty || (pyStrip s).isEmpty then []
  else if (pyStrip s).contains '-' && !(startsWithB (pyStrip s) ['-']) then
    match splitOnChar '-' (pyStrip s) with
    | [p0, p1] =>
      match pyInt (pyStrip p0), pyInt (pyStrip p1) with
      | some a, some b => pyRange a (b + 1)
      | _, _ => []
    | _ => lineNumbersRest (pyStrip s)
  else lineNumbersRest (pyStrip s)

/-
==== Basic lemmas about the string model ====
-/

theorem dropWhile_eq_self_of_not {p : Char → Bool} :
    ∀ {l : Str}, (∀ c ∈ l, p c = false) → l.dropWhile p = l := by
  intro l h
  cases l with
  | nil => rfl
  | cons c cs =>
    rw [List.dropWhile_cons]
    simp [h c (List.mem_cons_self c cs)]

theorem pyStrip_eq_self {l : Str} (h : ∀ c ∈ l, isPySpace c = false) :
    pyStrip l = l := by
  unfold pyStrip
  rw [dropWhile_eq_self_of_not h]
  rw [dropWhile_eq_self_of_not (by intro c hc; exact h c (List.mem_reverse.mp hc))]
  exact List.reverse_reverse l

theorem mem_pyStrip {c : Char} {l : Str} (h : c ∈ pyStrip l) : c ∈ l := by
  unfold pyStrip at h
  rw [List.mem_reverse] at h
  have h2 := (List.dropWhile_sublist _).mem h
  rw [List.mem_reverse] at h2
  exact (List.dropWhile_sublist _).mem h2

theorem isPySpace_of_digit {c : Char} (h : isDigitC c = true) : isPySpace c = false := by
  unfold isDigitC at h
  unfold isPySpace
  simp only [Bool.and_eq_true, decide_eq_true_eq] at h
  simp only [Bool.or_eq_false_iff, beq_eq_false_iff_ne, ne_eq]
  omega

theorem splitOnChar_no_sep {sep : Char} :
    ∀ {l : Str}, sep ∉ l → splitOnChar sep l = [l] := by
  intro l h
  induction l with
  | nil => rfl
  | cons c cs ih =>
    have hc : (c == sep) = false := by
      simp only [beq_eq_false_iff_ne, ne_eq]
      intro he; exact h (he ▸ List.mem_cons_self c cs)
    simp only [splitOnChar, hc, Bool.false_eq_true, if_false,
      ih (fun hm => h (List.mem_cons_of_mem c hm))]

theorem splitOnChar_append_sep {sep : Char} {a b : Str}
    (ha : sep ∉ a) (hb : sep ∉ b) :
    splitOnChar sep (a ++ sep :: b) = [a, b] := by
  induction a with
  | nil =>
    simp only [List.nil_append, splitOnChar, beq_self_eq_true, if_true,
      splitOnChar_no_sep hb]
  | cons c cs ih =>
    have hc : (c == sep) = false := by
      simp only [beq_eq_false_iff_ne, ne_eq]
      intro he; exact ha (he ▸ List.mem_cons_self c cs)
    have ih2 := ih (fun hm => ha (List.mem_cons_of_mem c hm))
    simp only [List.cons_append, splitOnChar, hc, Bool.false_eq_true, if_false,
      List.append_eq, ih2]

theorem mem_splitOnChar_not_sep {sep : Char} :
    ∀ {l : Str} {p : Str}, p ∈ splitOnChar sep l → sep ∉ p := by
  intro l
  induction l with
  | nil =>
    intro p hp
    unfold splitOnChar at hp
    simp only [List.mem_singleton] at hp
    subst hp; exact List.not_mem_nil sep
  | cons c cs ih =>
    intro p hp
    unfold splitOnChar at hp
    by_cases hc : (c == sep) = true
    · rw [if_pos hc] at hp
      rcases List.mem_cons.mp hp with h | h
      · subst h; exact List.not_mem_nil sep
      · exact ih h
    · rw [if_neg hc] at hp
      rcases hsplit : splitOnChar sep cs with _ | ⟨h0, t0⟩
      · rw [hsplit] at hp
        simp only [List.mem_singleton] at hp
        subst hp
        intro hm
        rcases List.mem_cons.mp hm with he | he
        · exact hc (by simp [he.symm])
        · exact List.not_mem_nil sep he
      · rw [hsplit] at hp
        rcases List.mem_cons.mp hp with h | h
        · subst h
          intro hm
          rcases List.mem_cons.mp hm with he | he
          · exact hc (by simp [he.symm])
          · exact ih (hsplit ▸ List.mem_cons_self h0 t0) he
        · exact ih (hsplit ▸ List.mem_cons_of_mem h0 h)

theorem pyDigits_of_all_digits {t : Str} (hne : t ≠ [])
    (hd : ∀ c ∈ t, isDigitC c = true) :
    pyDigits t = some (digitsVal t) := by
  unfold pyDigits
  have h1 : t.isEmpty = false := by simpa [List.isEmpty_iff] using hne
  have h2 : isDigitC (t.headD ' ') = true := by
    cases t with
    | nil => exact absurd rfl hne
    | cons c cs => exact hd c (List.mem_cons_self c cs)
  have h3 : isDigitC (t.getLastD ' ') = true := by
    cases t with
    | nil => exact absurd rfl hne
    | cons c cs =>
      rw [List.getLastD_eq_getLast?]
      rw [List.getLast?_eq_getLast (c :: cs) (by simp)]
      exact hd _ (List.getLast_mem _)
  have h4 : t.all (fun c => isDigitC c || c == '_') = true := by
    rw [List.all_eq_true]
    intro c hc
    simp [hd c hc]
  have h5 : noDoubleUnderscore t = true := by
    clear hne h1 h2 h3 h4
    induction t with
    | nil => rfl
    | cons a rest ih =>
      cases rest with
      | nil => rfl
      | cons b rest2 =>
        unfold noDoubleUnderscore
        have ha : (a == '_') = false := by
          simp only [beq_eq_false_iff_ne, ne_eq]
          intro he
          have h2 := hd a (List.mem_cons_self _ _)
          rw [he] at h2
          exact absurd h2 (by decide)
        rw [ih (fun c hc => hd c (List.mem_cons_of_mem a hc))]
        simp [ha]
  rw [h1, h2, h3, h4, h5]
  simp only [Bool.not_false, Bool.and_true, Bool.and_self, if_pos]
  congr 1
  congr 1
  exact List.filter_eq_self.mpr hd

theorem pyInt_of_all_digits {t : Str} (hne : t ≠ [])
    (hd : ∀ c ∈ t, isDigitC c = true) :
    pyInt t = some (Int.ofNat (digitsVal t)) := by
  unfold pyInt
  have hs : pyStrip t = t :=
    pyStrip_eq_self (fun c hc => isPySpace_of_digit (hd c hc))
  rw [hs]
  cases t with
  | nil => exact absurd rfl hne
  | cons c cs =>
    have hc := hd c (List.mem_cons_self c cs)
    have hplus : (c == '+') = false := by
      simp only [beq_eq_false_iff_ne, ne_eq]
      intro he; rw [he] at hc; exact absurd hc (by decide)
    have hminus : (c == '-') = false := by
      simp only [beq_eq_false_iff_ne, ne_eq]
      intro he; rw [he] at hc; exact absurd hc (by decide)
    simp only [pyIntCore, hplus, hminus, Bool.false_eq_true, if_false,
      pyDigits_of_all_digits (List.cons_ne_nil c cs) hd]
    rfl

/-
==== Claim C7: the confidence parser ====
-/

theorem parse_confidence_bounds (s : Str) :
    0 ≤ parse_confidence s ∧ parse_confidence s ≤ 100 := by
  unfold parse_confidence
  split
  · exact ⟨by norm_num, by norm_num⟩
  · split
    · constructor
      · exact le_max_left 0 _
      · exact max_le (by norm_num) (min_le_left 100 _)
    · exact ⟨by norm_num, by norm_num⟩

theorem parse_confidence_roundtrip_nat :
    ∀ m < 101, parse_confidence (pyStrNat m) = Int.ofNat m := by decide

/-- C7: the confidence parser is total with output clamped to [0, 100], and
re-parsing the decimal rendering of its result returns the same value
(idempotence in the sense `parse_confidence (str (parse_confidence x)) =
parse_confidence x`). -/
theorem c7_parse_confidence_total_idempotent (s : Str) :
    0 ≤ parse_confidence s ∧ parse_confidence s ≤ 100 ∧
      parse_confidence (pyStrInt (parse_confidence s)) = parse_confidence s := by
  obtain ⟨h0, h100⟩ := parse_confidence_bounds s
  refine ⟨h0, h100, ?_⟩
  have hlt : ¬ parse_confidence s < 0 := not_lt.mpr h0
  unfold pyStrInt
  rw [if_neg hlt]
  have hm : (parse_confidence s).toNat < 101 := by omega
  have := parse_confidence_roundtrip_nat (parse_confidence s).toNat hm
  rw [this]
  exact_mod_cast Int.toNat_of_nonneg h0

/-
==== Claims C9 and C10: the line-number parser ====
-/

theorem pyInt_nonneg {s : Str} (h : '-' ∉ s) {v : Int}
    (hv : pyInt s = some v) : 0 ≤ v := by
  unfold pyInt at hv
  cases hst : pyStrip s with
  | nil => rw [hst] at hv; exact absurd hv (by simp [pyIntCore])
  | cons c rest =>
    rw [hst] at hv
    have hcm : c ∈ pyStrip s := hst ▸ List.mem_cons_self c rest
    have hcne : (c == '-') = false := by
      simp only [beq_eq_false_iff_ne, ne_eq]
      intro he; exact h (he ▸ mem_pyStrip hcm)
    simp only [pyIntCore] at hv
    by_cases hp : (c == '+') = true
    · rw [if_pos hp] at hv
      cases hpd : pyDigits rest with
      | none => rw [hpd] at hv; exact absurd hv (by simp)
      | some m =>
        rw [hpd] at hv
        simp only [Option.map, Option.some.injEq] at hv
        rw [← hv]
        exact Int.ofNat_nonneg m
    · rw [if_neg hp, if_neg (by simp [hcne])] at hv
      cases hpd : pyDigits (c :: rest) with
      | none => rw [hpd] at hv; exact absurd hv (by simp)
      | some m =>
        rw [hpd] at hv
        simp only [Option.map, Option.some.injEq] at hv
        rw [← hv]
        exact Int.ofNat_nonneg m

theorem mem_pyRange_le {a b n : Int} (h : n ∈ pyRange a b) : a ≤ n := by
  unfold pyRange at h
  rcases List.mem_map.mp h with ⟨i, _, rfl⟩
  omega

theorem mem_lineNumbersRest_nonneg {t : Str} {n : Int}
    (h : n ∈ lineNumbersRest t) : 0 ≤ n := by
  unfold lineNumbersRest at h
  split at h
  · rcases List.mem_map.mp h with ⟨x, _, rfl⟩
    exact Int.ofNat_nonneg _
  · split at h
    · rcases List.mem_singleton.mp h with rfl
      exact Int.ofNat_nonneg _
    · exact absurd h (List.not_mem_nil n)

/-- C9 (amended): every integer produced by the line-number parser is
nonnegative.  (The original claim said "positive", which fails on input
`"0"`; zero can appear, see the counterexample.) -/
theorem c9_line_numbers_nonneg (s : Str) (n : Int)
    (hn : n ∈ parse_line_numbers s) : 0 ≤ n := by
  unfold parse_line_numbers at hn
  split at hn
  · exact absurd hn (List.not_mem_nil n)
  · split at hn
    · split at hn
      · rename_i p0 p1 heq
        split at hn
        · rename_i a b ha hb
          have hp0 : p0 ∈ splitOnChar '-' (pyStrip s) := by
            rw [heq]; exact List.mem_cons_self p0 [p1]
          have hnd : '-' ∉ pyStrip p0 := fun hm =>
            mem_splitOnChar_not_sep hp0 (mem_pyStrip hm)
          exact le_trans (pyInt_nonneg hnd ha) (mem_pyRange_le hn)
        · exact absurd hn (List.not_mem_nil n)
      · exact mem_lineNumbersRest_nonneg hn
    · exact mem_lineNumbersRest_nonneg hn

/-- Witness for C9 at a concrete input: `"10-12"` parses to a list whose
member 10 is nonnegative. -/
theorem c9_line_numbers_nonneg_witness : (0 : Int) ≤ 10 :=
  c9_line_numbers_nonneg (s2c "10-12") 10 (by decide)

/-- C9 counterexample: the parser output is not always positive — on input
`"0"` it returns `[0]`, and `0` is not positive. -/
theorem c9_counterexample :
    ¬ (∀ n ∈ parse_line_numbers (s2c "0"), 0 < n) := by decide

/-- C10: for digit strings `a`, `b` with value of `a` greater than value of
`b`, the input `"a-b"` (a descending range) parses to the empty sequence. -/
theorem c10_descending_range_empty (da db : Str)
    (hna : da ≠ []) (hnb : db ≠ [])
    (hda : ∀ c ∈ da, isDigitC c = true) (hdb : ∀ c ∈ db, isDigitC c = true)
    (hgt : digitsVal db < digitsVal da) :
    parse_line_numbers (da ++ '-' :: db) = [] := by
  have hsp : ∀ c ∈ da ++ '-' :: db, isPySpace c = false := by
    intro c hc
    rcases List.mem_append.mp hc with hm | hm
    · exact isPySpace_of_digit (hda c hm)
    · rcases List.mem_cons.mp hm with rfl | hm
      · decide
      · exact isPySpace_of_digit (hdb c hm)
  have hstrip : pyStrip (da ++ '-' :: db) = da ++ '-' :: db := pyStrip_eq_self hsp
  have hnemp : (da ++ '-' :: db).isEmpty = false := by
    cases da with
    | nil => exact absurd rfl hna
    | cons c cs => rfl
  have hguard : ((da ++ '-' :: db).isEmpty || (pyStrip (da ++ '-' :: db)).isEmpty)
      = false := by
    rw [hstrip, hnemp]; rfl
  have hcont : (da ++ '-' :: db).contains '-' = true := by
    have : '-' ∈ da ++ '-' :: db :=
      List.mem_append.mpr (Or.inr (List.mem_cons_self _ _))
    exact List.elem_iff.mpr this
  have hstart : startsWithB (da ++ '-' :: db) ['-'] = false := by
    cases da with
    | nil => exact absurd rfl hna
    | cons c cs =>
      have hc := hda c (List.mem_cons_self c cs)
      have hcneq : (c == '-') = false := by
        simp only [beq_eq_false_iff_ne, ne_eq]
        intro he; rw [he] at hc; exact absurd hc (by decide)
      simp [startsWithB, hcneq]
  have hdash_a : '-' ∉ da := by
    intro hm; have := hda '-' hm; exact absurd this (by decide)
  have hdash_b : '-' ∉ db := by
    intro hm; have := hdb '-' hm; exact absurd this (by decide)
  have hsplit : splitOnChar '-' (da ++ '-' :: db) = [da, db] :=
    splitOnChar_append_sep hdash_a hdash_b
  have hia : pyInt (pyStrip da) = some (Int.ofNat (digitsVal da)) := by
    rw [pyStrip_eq_self (fun c hc => isPySpace_of_digit (hda c hc))]
    exact pyInt_of_all_digits hna hda
  have hib : pyInt (pyStrip db) = some (Int.ofNat (digitsVal db)) := by
    rw [pyStrip_eq_self (fun c hc => isPySpace_of_digit (hdb c hc))]
    exact pyInt_of_all_digits hnb hdb
  unfold parse_line_numbers
  rw [hguard]
  simp only [Bool.false_eq_true, if_false, hstrip, hcont, hstart, Bool.not_false,
    Bool.and_self, if_true, hsplit, hia, hib]
  unfold pyRange
  have hz : (Int.ofNat (digitsVal db) + 1 - Int.ofNat (digitsVal da)).toNat = 0 := by
    simp only [Int.ofNat_eq_coe]
    omega
  rw [hz]
  rfl

/-- Witness for C10 at the claim's own example: `"12-10"` parses to `[]`. -/
theorem c10_descending_range_empty_witness :
    parse_line_numbers (s2c "12-10") = [] := by
  have h := c10_descending_range_empty (s2c "12") (s2c "10")
    (by decide) (by decide) (by decide) (by decide) (by decide)
  have e : s2c "12-10" = s2c "12" ++ '-' :: s2c "10" := by decide
  rw [e]; exact h

/-
==== dto.py: data transfer objects and Claim C8 ====
-/

/-- `dto.Severity` enum (values "High", "Medium", "Low"). -/
inductive Severity where
  | high
  | medium
  | low
deriving DecidableEq

/-- The `.value` string of a `Severity` member. -/
def Severity.value : Severity → Str
  | .high => s2c "High"
  | .medium => s2c "Medium"
  | .low => s2c "Low"

/-- `Severity(v)` enum lookup by value; `none` models a raised `ValueError`. -/
def Severity.fromValue (v : Str) : Option Severity :=
  if v == s2c "High" then some .high
  else if v == s2c "Medium" then some .medium
  else if v == s2c "Low" then some .low
  else none

/-- `dto.ReviewType` enum.  Note: the enum in `src/dto.py` has only the
three members SECURITY, ACCESSIBILITY and PERFORMANCE — there is no
QUALITY member. -/
inductive ReviewType where
  | security
  | accessibility
  | performance
deriving DecidableEq

/-- The `.value` string of a `ReviewType` member. -/
def ReviewType.value : ReviewType → Str
  | .security => s2c "security"
  | .accessibility => s2c "accessibility"
  | .performance => s2c "performance"

/-- `ReviewType(v)` enum lookup by value; `none` models a raised `ValueError`. -/
def ReviewType.fromValue (v : Str) : Option ReviewType :=
  if v == s2c "security" then some .security
  else if v == s2c "accessibility" then some .accessibility
  else if v == s2c "performance" then some .performance
  else none

/-- JSON-like structured values, the target of the DTO `to_dict` methods. -/
inductive JVal where
  | jnull
  | jstr (s : Str)
  | jint (n : Int)
  | jarr (xs : List JVal)
  | jobj (fields : List (Str × JVal))

/-- Dictionary key lookup (`data[key]` / `data.get(key)`). -/
def jGet (fields : List (Str × JVal)) (key : Str) : Option JVal :=
  match fields.find? (fun p => p.1 == key) with
  | some p => some p.2
  | none => none

/-- Read a string out of a structured value. -/
def asStr : JVal → Option Str
  | .jstr s => some s
  | _ => none

/-- Read an integer out of a structured value. -/
def asInt : JVal → Option Int
  | .jint n => some n
  | _ => none

/-- `dto.IssueDTO`. -/
structure IssueDTO where
  issue : Str
  severity : Severity
  confidence : Int
  line_numbers : List Int
  code : Str
  suggestion : Str
  review_type : ReviewType
  file_path : Option Str
deriving DecidableEq


/-- The association list built by `IssueDTO.to_dict`. -/
def IssueDTO.to_fields (i : IssueDTO) : List (Str × JVal) :=
  [ (s2c "issue", .jstr i.issue),
    (s2c "severity", .jstr i.severity.value),
    (s2c "confidence", .jint i.confidence),
    (s2c "line_numbers", .jarr (i.line_numbers.map JVal.jint)),
    (s2c "code", .jstr i.code),
    (s2c "suggestion", .jstr i.suggestion),
    (s2c "review_type", .jstr i.review_type.value),
    (s2c "file_path",
      match i.file_path with
      | some p => .jstr p
      | none => .jnull) ]

/-- `IssueDTO.to_dict`. -/
def IssueDTO.to_dict (i : IssueDTO) : JVal := .jobj i.to_fields

/-- Decode a list of integers (the `line_numbers` entry). -/
def decodeIntList : List JVal → Option (List Int)
  | [] => some []
  | x :: xs => (asInt x).bind fun n => (decodeIntList xs).map (n :: ·)

/-- Fetch a required string entry (`data[key]` expected to be a string). -/
def reqStr (fields : List (Str × JVal)) (key : Str) : Option Str :=
  (jGet fields key).bind asStr

/-- Fetch a required integer entry. -/
def reqInt (fields : List (Str × JVal)) (key : Str) : Option Int :=
  (jGet fields key).bind asInt

/-- Fetch a required list entry. -/
def reqArr (fields : List (Str × JVal)) (key : Str) : Option (List JVal) :=
  (jGet fields key).bind fun j =>
    match j with
    | .jarr xs => some xs
    | _ => none

/-- `data.get("file_path")`: `None` when the key is missing or null. -/
def optFilePath (fields : List (Str × JVal)) : Option Str :=
  match jGet fields (s2c "file_path") with
  | some (.jstr p) => some p
  | _ => none

/-- `IssueDTO.from_dict`; `none` models a `KeyError` / `ValueError`. -/
def IssueDTO.from_dict (j : JVal) : Option IssueDTO :=
  match j with
  | .jobj fields =>
    (reqStr fields (s2c "issue")).bind fun iss =>
    ((reqStr fields (s2c "severity")).bind Severity.fromValue).bind fun sev =>
    (reqInt fields (s2c "confidence")).bind fun conf =>
    ((reqArr fields (s2c "line_numbers")).bind decodeIntList).bind fun lns =>
    (reqStr fields (s2c "code")).bind fun code =>
    (reqStr fields (s2c "suggestion")).bind fun sugg =>
    ((reqStr fields (s2c "review_type")).bind ReviewType.fromValue).bind fun rt =>
    some { issue := iss, severity := sev, confidence := conf,
           line_numbers := lns, code := code, suggestion := sugg,
           review_type := rt, file_path := optFilePath fields }
  | _ => none

/-- `dto.FileAnalysisDTO`. -/
structure FileAnalysisDTO where
  file_path : Str
  issues : List IssueDTO
  review_types_analyzed : List ReviewType
deriving DecidableEq

/-- The association list built by `FileAnalysisDTO.to_dict`. -/
def FileAnalysisDTO.to_fields (f : FileAnalysisDTO) : List (Str × JVal) :=
  [ (s2c "file_path", .jstr f.file_path),
    (s2c "issues", .jarr (f.issues.map IssueDTO.to_dict)),
    (s2c "review_types_analyzed",
      .jarr (f.review_types_analyzed.map (fun rt => .jstr rt.value))) ]

/-- `FileAnalysisDTO.to_dict`. -/
def FileAnalysisDTO.to_dict (f : FileAnalysisDTO) : JVal := .jobj f.to_fields

/-- Decode a list of issue dictionaries. -/
def decodeIssueList : List JVal → Option (List IssueDTO)
  | [] => some []
  | x :: xs => (IssueDTO.from_dict x).bind fun i => (decodeIssueList xs).map (i :: ·)

/-- Decode a list of review types (`[ReviewType(rt) for rt in ...]`). -/
def decodeReviewTypeList : List JVal → Option (List ReviewType)
  | [] => some []
  | x :: xs =>
    ((asStr x).bind ReviewType.fromValue).bind fun rt =>
      (decodeReviewTypeList xs).map (rt :: ·)

/-- `FileAnalysisDTO.from_dict`. -/
def FileAnalysisDTO.from_dict (j : JVal) : Option FileAnalysisDTO :=
  match j with
  | .jobj fields =>
    (reqStr fields (s2c "file_path")).bind fun fp =>
    ((reqArr fields (s2c "issues")).bind decodeIssueList).bind fun iss =>
    ((reqArr fields (s2c "review_types_analyzed")).bind decodeReviewTypeList).bind
      fun rts =>
    some { file_path := fp, issues := iss, review_types_analyzed := rts }
  | _ => none

/-- `dto.AnalysisResultDTO`. -/
structure AnalysisResultDTO where
  files : List FileAnalysisDTO
  total_issues : Int
  analysis_timestamp : Str
  review_types : List ReviewType
deriving DecidableEq

/-- The association list built by `AnalysisResultDTO.to_dict`. -/
def AnalysisResultDTO.to_fields (r : AnalysisResultDTO) : List (Str × JVal) :=
  [ (s2c "files", .jarr (r.files.map FileAnalysisDTO.to_dict)),
    (s2c "total_issues", .jint r.total_issues),
    (s2c "analysis_timestamp", .jstr r.analysis_timestamp),
    (s2c "review_types",
      .jarr (r.review_types.map (fun rt => .jstr rt.value))) ]

/-- `AnalysisResultDTO.to_dict`. -/
def AnalysisResultDTO.to_dict (r : AnalysisResultDTO) : JVal := .jobj r.to_fields

/-- Decode a list of per-file analyses. -/
def decodeFileList : List JVal → Option (List FileAnalysisDTO)
  | [] => some []
  | x :: xs =>
    (FileAnalysisDTO.from_dict x).bind fun f => (decodeFileList xs).map (f :: ·)

/-- `AnalysisResultDTO.from_dict`. -/
def AnalysisResultDTO.from_dict (j : JVal) : Option AnalysisResultDTO :=
  match j with
  | .jobj fields =>
    ((reqArr fields (s2c "files")).bind decodeFileList).bind fun fs =>
    (reqInt fields (s2c "total_issues")).bind fun ti =>
    (reqStr fields (s2c "analysis_timestamp")).bind fun ts =>
    ((reqArr fields (s2c "review_types")).bind decodeReviewTypeList).bind fun rts =>
    some { files := fs, total_issues := ti, analysis_timestamp := ts,
           review_types := rts }
  | _ => none

theorem jGetIssueFields_issue (i : IssueDTO) :
    jGet i.to_fields (s2c "issue") = some (.jstr i.issue) := rfl

theorem jGetIssueFields_severity (i : IssueDTO) :
    jGet i.to_fields (s2c "severity") = some (.jstr i.severity.value) := rfl

theorem jGetIssueFields_confidence (i : IssueDTO) :
    jGet i.to_fields (s2c "confidence") = some (.jint i.confidence) := rfl

theorem jGetIssueFields_line_numbers (i : IssueDTO) :
    jGet i.to_fields (s2c "line_numbers")
      = some (.jarr (i.line_numbers.map JVal.jint)) := rfl

theorem jGetIssueFields_code (i : IssueDTO) :
    jGet i.to_fields (s2c "code") = some (.jstr i.code) := rfl

theorem jGetIssueFields_suggestion (i : IssueDTO) :
    jGet i.to_fields (s2c "suggestion") = some (.jstr i.suggestion) := rfl

theorem jGetIssueFields_review_type (i : IssueDTO) :
    jGet i.to_fields (s2c "review_type") = some (.jstr i.review_type.value) := rfl

theorem jGetIssueFields_file_path (i : IssueDTO) :
    jGet i.to_fields (s2c "file_path")
      = some (match i.file_path with
              | some p => .jstr p
              | none => .jnull) := rfl

theorem decodeIntList_map (xs : List Int) :
    decodeIntList (xs.map JVal.jint) = some xs := by
  induction xs with
  | nil => rfl
  | cons x xs ih => simp [decodeIntList, ih, asInt]

theorem reviewTypeFromValue_value (rt : ReviewType) :
    ReviewType.fromValue rt.value = some rt := by
  cases rt <;> rfl

theorem severityFromValue_value (sev : Severity) :
    Severity.fromValue sev.value = some sev := by
  cases sev <;> rfl

theorem decodeReviewTypeList_map (rts : List ReviewType) :
    decodeReviewTypeList (rts.map (fun rt => JVal.jstr rt.value)) = some rts := by
  induction rts with
  | nil => rfl
  | cons rt rts ih =>
    simp [decodeReviewTypeList, ih, asStr, reviewTypeFromValue_value]

theorem IssueDTO_roundtrip (i : IssueDTO) :
    IssueDTO.from_dict i.to_dict = some i := by
  simp only [IssueDTO.to_dict, IssueDTO.from_dict, reqStr, reqInt, reqArr,
    jGetIssueFields_issue, jGetIssueFields_severity, jGetIssueFields_confidence,
    jGetIssueFields_line_numbers, jGetIssueFields_code, jGetIssueFields_suggestion,
    jGetIssueFields_review_type, optFilePath, jGetIssueFields_file_path,
    asStr, asInt, Option.some_bind, severityFromValue_value,
    decodeIntList_map, reviewTypeFromValue_value]
  cases i with
  | mk iss sev conf lns code sugg rt fp => cases fp <;> rfl

theorem jGetFileFields_file_path (f : FileAnalysisDTO) :
    jGet f.to_fields (s2c "file_path") = some (.jstr f.file_path) := rfl

theorem jGetFileFields_issues (f : FileAnalysisDTO) :
    jGet f.to_fields (s2c "issues")
      = some (.jarr (f.issues.map IssueDTO.to_dict)) := rfl

theorem jGetFileFields_review_types (f : FileAnalysisDTO) :
    jGet f.to_fields (s2c "review_types_analyzed")
      = some (.jarr (f.review_types_analyzed.map (fun rt => .jstr rt.value))) := rfl

theorem decodeIssueList_map (issues : List IssueDTO) :
    decodeIssueList (issues.map IssueDTO.to_dict) = some issues := by
  induction issues with
  | nil => rfl
  | cons i is ih => simp [decodeIssueList, IssueDTO_roundtrip i, ih]

theorem FileAnalysisDTO_roundtrip (f : FileAnalysisDTO) :
    FileAnalysisDTO.from_dict f.to_dict = some f := by
  simp only [FileAnalysisDTO.to_dict, FileAnalysisDTO.from_dict, reqStr, reqArr,
    jGetFileFields_file_path, jGetFileFields_issues, jGetFileFields_review_types,
    asStr, Option.some_bind, decodeIssueList_map, decodeReviewTypeList_map]

theorem jGetResultFields_files (r : AnalysisResultDTO) :
    jGet r.to_fields (s2c "files")
      = some (.jarr (r.files.map FileAnalysisDTO.to_dict)) := rfl

theorem jGetResultFields_total_issues (r : AnalysisResultDTO) :
    jGet r.to_fields (s2c "total_issues") = some (.jint r.total_issues) := rfl

theorem jGetResultFields_timestamp (r : AnalysisResultDTO) :
    jGet r.to_fields (s2c "analysis_timestamp")
      = some (.jstr r.analysis_timestamp) := rfl

theorem jGetResultFields_review_types (r : AnalysisResultDTO) :
    jGet r.to_fields (s2c "review_types")
      = some (.jarr (r.review_types.map (fun rt => .jstr rt.value))) := rfl

theorem decodeFileList_map (fs : List FileAnalysisDTO) :
    decodeFileList (fs.map FileAnalysisDTO.to_dict) = some fs := by
  induction fs with
  | nil => rfl
  | cons f fs ih => simp [decodeFileList, FileAnalysisDTO_roundtrip f, ih]

/-- C8: serializing an `AnalysisResultDTO` to its structured dictionary form
and deserializing it back yields the original value, with every field —
including the severity and review-category enumerants and the timestamp
string — preserved. -/
theorem c8_analysis_result_roundtrip (r : AnalysisResultDTO) :
    AnalysisResultDTO.from_dict r.to_dict = some r := by
  simp only [AnalysisResultDTO.to_dict, AnalysisResultDTO.from_dict, reqStr, reqInt,
    reqArr, jGetResultFields_files, jGetResultFields_total_issues,
    jGetResultFields_timestamp, jGetResultFields_review_types,
    asStr, asInt, Option.some_bind, decodeFileList_map, decodeReviewTypeList_map]

/-
==== aidiff/core/models.py: the legacy Issue record ====
-/

/-- `models.Issue` dataclass: all fields are strings; absent fields default
to the empty string (`__post_init__` also coerces `None` to `""`). -/
structure Issue where
  issue : Str
  file : Str
  severity : Str := []
  confidence : Str := []
  suggestion : Str := []
  line_number : Str := []
  code : Str := []
deriving DecidableEq

/-
==== aidiff/utils/issue_parser.py ====
-/

/-- Line-break characters recognised by Python's `str.splitlines`
(ASCII subset: LF, VT, FF, CR, FS, GS, RS). -/
def isLineBreakC (c : Char) : Bool :=
  c.toNat == 10 || c.toNat == 11 || c.toNat == 12 || c.toNat == 13 ||
  c.toNat == 28 || c.toNat == 29 || c.toNat == 30

/-- Worker for `pySplitlines`: accumulates the current line (reversed). -/
def pySplitlinesGo (cur : Str) : Str → List Str
  | [] => [cur.reverse]
  | '\r' :: '\n' :: rest =>
    cur.reverse :: (if rest.isEmpty then [] else pySplitlinesGo [] rest)
  | c :: rest =>
    if isLineBreakC c then
      cur.reverse :: (if rest.isEmpty then [] else pySplitlinesGo [] rest)
    else pySplitlinesGo (c :: cur) rest

/-- Python `str.splitlines()`: split on line boundaries, no trailing empty
piece for a trailing newline; the empty string gives `[]`. -/
def pySplitlines : Str → List Str
  | [] => []
  | s => pySplitlinesGo [] s

/-- `'\n'.join(lines)`. -/
def joinNL (lines : List Str) : Str := List.intercalate ['\n'] lines

/-- The seven recognised field labels of `IssueParser.field_map`. -/
inductive FieldName where
  | file
  | issue
  | severity
  | confidence
  | suggestion
  | lineNumber
  | code
deriving DecidableEq

/-- The label text of a field, as written in `field_map`. -/
def fieldLabel : FieldName → Str
  | .file => s2c "File"
  | .issue => s2c "Issue"
  | .severity => s2c "Severity"
  | .confidence => s2c "Confidence"
  | .suggestion => s2c "Suggestion"
  | .lineNumber => s2c "Line Number"
  | .code => s2c "Code"

/-- Iteration order of `field_map` (Python dicts preserve insertion order). -/
def fieldOrder : List FieldName :=
  [.file, .issue, .severity, .confidence, .suggestion, .lineNumber, .code]

/-- The bold-markdown label form `**Label:**`. -/
def mdLabel (f : FieldName) : Str := s2c "**" ++ fieldLabel f ++ s2c ":**"

/-- The plain label form `Label:`. -/
def plainLabel (f : FieldName) : Str := fieldLabel f ++ [':']

/-- First field (in `field_map` order) whose markdown or plain label is a
prefix of the stripped line. -/
def matchField (ls : Str) : Option FieldName :=
  fieldOrder.find? (fun f => startsWithB ls (mdLabel f) || startsWithB ls (plainLabel f))

/-- The raw field dictionary extracted from one block (`issue_data`):
`none` means the key is absent, `some v` the stored raw string. -/
structure IssueData where
  file : Option Str := none
  issue : Option Str := none
  severity : Option Str := none
  confidence : Option Str := none
  suggestion : Option Str := none
  line_number : Option Str := none
  code : Option Str := none
deriving DecidableEq

/-- Store a value under a field's dictionary key. -/
def IssueData.set (d : IssueData) : FieldName → Str → IssueData
  | .file, v => { d with file := some v }
  | .issue, v => { d with issue := some v }
  | .severity, v => { d with severity := some v }
  | .confidence, v => { d with confidence := some v }
  | .suggestion, v => { d with suggestion := some v }
  | .lineNumber, v => { d with line_number := some v }
  | .code, v => { d with code := some v }

/-- Python dict falsiness: the dictionary has no keys at all. -/
def IssueData.isEmptyData (d : IssueData) : Bool :=
  d.file.isNone && d.issue.isNone && d.severity.isNone && d.confidence.isNone &&
  d.suggestion.isNone && d.line_number.isNone && d.code.isNone

/-- `IssueParser._process_field_value`: join the accumulated lines, strip,
and for a fenced `Code` field strip the fence markers
(`re.sub(rf'^{delim}[a-zA-Z0-9]*', '', val)` then `re.sub(rf'{delim}$', '', val)`). -/
def processFieldValue (valueLines : List Str) (f : FieldName) (delim : Option Str) : Str :=
  let val := pyStrip (joinNL valueLines)
  match f, delim with
  | .code, some d =>
    let v1 := if startsWithB val d then (val.drop d.length).dropWhile isAlnumC else val
    let v2 := if endsWithB v1 d then v1.take (v1.length - d.length) else v1
    pyStrip v2
  | _, _ => val

/-- Scanner state of `IssueParser._parse_issue_block`. -/
structure PState where
  field : Option FieldName
  valueLines : List Str
  inCode : Bool
  delim : Option Str
  data : IssueData

/-- Close out the currently open field (`if field and value_lines: ...`). -/
def saveCurrent (st : PState) : IssueData :=
  match st.field with
  | some pf =>
    if st.valueLines.isEmpty then st.data
    else st.data.set pf (processFieldValue st.valueLines pf st.delim)
  | none => st.data

/-- One iteration of the line loop in `IssueParser._parse_issue_block`. -/
def stepLine (st : PState) (line : Str) : PState :=
  let ls := pyStrip line
  match (if st.inCode then none else matchField ls) with
  | some f =>
    let data2 := saveCurrent st
    let val :=
      if startsWithB ls (mdLabel f) then pyLstrip (ls.drop (mdLabel f).length)
      else pyLstrip (ls.drop (plainLabel f).length)
    if f == FieldName.code
        && (startsWithB val (s2c "```") || startsWithB val (s2c "``")) then
      { field := some f, valueLines := [val], inCode := true,
        delim := some (if startsWithB val (s2c "```") then val.take 3 else val.take 2),
        data := data2 }
    else
      { field := some f, valueLines := if val.isEmpty then [] else [val],
        inCode := false, delim := none, data := data2 }
  | none =>
    if st.field == some FieldName.code
        && (st.inCode || startsWithB ls (s2c "```") || startsWithB ls (s2c "``")) then
      { st with
        valueLines := st.valueLines ++ [line],
        inCode :=
          match st.delim with
          | some d => if startsWithB ls d then false else st.inCode
          | none => st.inCode }
    else if st.field.isSome then { st with valueLines := st.valueLines ++ [line] }
    else st

/-- Initial scanner state. -/
def initPState : PState :=
  { field := none, valueLines := [], inCode := false, delim := none, data := {} }

/-- `IssueParser._parse_issue_block`. -/
def parseIssueBlock (block : Str) : IssueData :=
  saveCurrent ((pySplitlines block).foldl stepLine initPState)

/-- Worker for `splitDashes`: `cur` is the current piece (reversed, without
pending hyphens) and `pending` counts the hyphen run currently being read;
a run of three or more hyphens is a separator, shorter runs are kept. -/
def splitDashesGo (cur : Str) (pending : Nat) : Str → List Str
  | [] =>
    if 3 ≤ pending then [cur.reverse, []]
    else [cur.reverse ++ List.replicate pending '-']
  | c :: rest =>
    if c == '-' then splitDashesGo cur (pending + 1) rest
    else if 3 ≤ pending then cur.reverse :: splitDashesGo [c] 0 rest
    else splitDashesGo (c :: (List.replicate pending '-' ++ cur)) 0 rest

/-- `re.split(r'---+', output)`: split on maximal runs of three or more
hyphens, keeping empty pieces. -/
def splitDashes (s : Str) : List Str := splitDashesGo [] 0 s

/-- Does a line start a new record in the `Issue:` fallback split
(`stripped.startswith('Issue:') or stripped.startswith('**Issue:**')`)? -/
def isIssueStart (line : Str) : Bool :=
  startsWithB (pyStrip line) (s2c "Issue:") || startsWithB (pyStrip line) (s2c "**Issue:**")

/-- Worker for `issueSplit`: lines before the first `Issue:` line are
discarded; each `Issue:` line starts a new block. -/
def issueSplitGo (blocks : List Str) (cur : List Str) : List Str → List Str
  | [] => if cur.isEmpty then blocks else blocks ++ [joinNL cur]
  | line :: rest =>
    if isIssueStart line then
      issueSplitGo (if cur.isEmpty then blocks else blocks ++ [joinNL cur]) [line] rest
    else if !cur.isEmpty then issueSplitGo blocks (cur ++ [line]) rest
    else issueSplitGo blocks cur rest

/-- The fallback split on lines starting with the `Issue` label. -/
def issueSplit (output : Str) : List Str := issueSplitGo [] [] (pySplitlines output)

/-- The candidate block list of `IssueParser.parse_llm_output`: the hyphen
split if it produced more than one piece, otherwise the `Issue:` line split. -/
def rawBlocks (output : Str) : List Str :=
  if (splitDashes output).length ≤ 1 then issueSplit output else splitDashes output

/-- Truncation used for the missing-description fallback:
`block.strip()[:100] + "..." if len(block.strip()) > 100 else block.strip()`. -/
def truncDesc (b : Str) : Str :=
  if 100 < (pyStrip b).length then (pyStrip b).take 100 ++ s2c "..." else pyStrip b

/-- The per-block body of the loop in `parse_llm_output`: strip the block,
skip it when empty, parse it, skip it when the field dictionary is falsy,
otherwise normalize into an `Issue` (with description and file fallbacks). -/
def processBlock (block : Str) : Option Issue :=
  let b := pyStrip block
  if b.isEmpty then none
  else
    let d := parseIssueBlock b
    if d.isEmptyData then none
    else some {
      issue :=
        match d.issue with
        | some v => if v.isEmpty then truncDesc b else v
        | none => truncDesc b,
      file :=
        match d.file with
        | some v => if v.isEmpty then s2c "N/A" else v
        | none => s2c "N/A",
      severity := d.severity.getD [],
      confidence := d.confidence.getD [],
      suggestion := d.suggestion.getD [],
      line_number := d.line_number.getD [],
      code := d.code.getD [] }

/-- The whole-response fallback record built when no issues were parsed. -/
def fallbackIssue (output : Str) : Issue :=
  { issue := pyStrip output, file := s2c "N/A", severity := [], confidence := [],
    suggestion := [], line_number := s2c "N/A", code := s2c "N/A" }

/-- `IssueParser.parse_llm_output`. -/
def parse_llm_output (output : Str) : List Issue :=
  let issues := (rawBlocks output).filterMap processBlock
  if issues.isEmpty then [fallbackIssue output] else issues

/-
==== aidiff/utils/issue_filter.py ====
-/

/-- `IssueFilter.generic_fields`: field-label names that indicate a parse
artifact rather than a real finding. -/
def genericFields : List Str :=
  [s2c "suggestion", s2c "issue", s2c "severity", s2c "confidence",
   s2c "file", s2c "code", s2c "line number"]

/-- Models `re.match(r'^[a-z_]*key[a-z_]*$', v)`: the whole string consists
of lower-case letters and underscores and contains "key". -/
def keyPatternB (v : Str) : Bool :=
  v.all (fun c => isLowerAlphaC c || c == '_') && containsStr v (s2c "key")

/-- Models `re.match(r'<.*>', v)`: the string starts with `<` and a `>`
occurs later on the first line (`.` does not match a newline). -/
def anglePatternB (v : Str) : Bool :=
  match v with
  | '<' :: rest => (rest.takeWhile (fun c => !(c == '\n'))).contains '>'
  | _ => false

/-- `IssueFilter._is_placeholder_value`. -/
def isPlaceholderValue (value : Str) : Bool :=
  if value.isEmpty then false
  else
    let v := pyLower (pyStrip value)
    (containsStr v (s2c "your") && containsStr v (s2c "key")
      || containsStr v (s2c "example")
      || startsWithB v (s2c "<") && endsWithB v (s2c ">")
      || containsStr v (s2c "changeme")
      || containsStr v (s2c "placeholder")
      || keyPatternB v)
    || anglePatternB v

/-- `IssueFilter._is_false_positive` (the gitignore content is passed in;
reading the file is the excluded I/O collaborator). -/
def isFalsePositive (i : Issue) (gitignoreContent : Str) : Bool :=
  isPlaceholderValue i.code || isPlaceholderValue i.suggestion ||
    isPlaceholderValue i.issue
  || (pyStrip i.file == s2c ".gitignore"
      && containsStr (pyLower i.issue) (s2c "not added to")
      && containsStr gitignoreContent (s2c ".env"))

/-- Models `re.fullmatch(r'^[\W_]+$', v)`: non-empty and every character
outside `[a-zA-Z0-9]`. -/
def isAllNonWordB (v : Str) : Bool :=
  !v.isEmpty && v.all (fun c => !isAlnumC c)

/-- `IssueFilter._is_real_issue` (without its code-blanking side effect,
modelled separately by `cleanCode`). -/
def isRealIssue (i : Issue) : Bool :=
  if !([i.issue, i.suggestion, i.severity, i.confidence].any
        (fun f => !(pyStrip f).isEmpty)) then false
  else
    let v := pyLower (pyStrip i.issue)
    if genericFields.contains v || v.isEmpty || isAllNonWordB v then false
    else true

/-- The side effect inside `_is_real_issue`: a whitespace-only `code`
field is blanked on kept records. -/
def cleanCode (i : Issue) : Issue :=
  if (pyStrip i.code).isEmpty then { i with code := [] } else i

/-- `IssueFilter.filter_false_positives`. -/
def filter_false_positives (gitignoreContent : Str) (issues : List Issue) :
    List Issue :=
  (issues.filter
    (fun i => !isFalsePositive i gitignoreContent && isRealIssue i)).map cleanCode

/-
==== aidiff/utils/dto_converter.py ====
-/

/-- `parse_severity` from dto.py: lower-case, strip, map the recognised
words, default Medium. -/
def parse_severity (s : Str) : Severity :=
  let v := pyStrip (pyLower s)
  if v == s2c "critical" || v == s2c "high" then .high
  else if v == s2c "medium" || v == s2c "moderate" then .medium
  else if v == s2c "low" || v == s2c "minor" then .low
  else .medium

/-- Security keywords of `DTOConverter._determine_review_type`. -/
def securityKeywords : List Str :=
  [s2c "security", s2c "vulnerability", s2c "authentication",
   s2c "authorization", s2c "xss", s2c "sql injection", s2c "csrf",
   s2c "hardcoded", s2c "password", s2c "token", s2c "api key"]

/-- Accessibility keywords. -/
def accessibilityKeywords : List Str :=
  [s2c "accessibility", s2c "aria", s2c "alt text", s2c "screen reader",
   s2c "contrast", s2c "keyboard", s2c "focus", s2c "wcag", s2c "semantic"]

/-- Performance keywords. -/
def performanceKeywords : List Str :=
  [s2c "performance", s2c "slow", s2c "optimize", s2c "memory", s2c "cpu",
   s2c "cache", s2c "async", s2c "blocking", s2c "inefficient"]

/-- Quality keywords. -/
def qualityKeywords : List Str :=
  [s2c "quality", s2c "code quality", s2c "maintainability",
   s2c "readability", s2c "complexity", s2c "best practice", s2c "refactor",
   s2c "clean code"]

deriving instance DecidableEq for Except

/-- `DTOConverter._determine_review_type`.  The branches that return
`ReviewType.QUALITY` in the source are modelled as `.error ()`: the
`ReviewType` enum imported from `dto.py` has no `QUALITY` member, so the
attribute access raises an `AttributeError` at run time. -/
def determineReviewType (i : Issue) (reviewTypes : List Str) :
    Except Unit ReviewType :=
  let t := pyLower i.issue
  if reviewTypes.contains (s2c "security")
      && securityKeywords.any (fun k => containsStr t k) then .ok .security
  else if reviewTypes.contains (s2c "accessibility")
      && accessibilityKeywords.any (fun k => containsStr t k) then .ok .accessibility
  else if reviewTypes.contains (s2c "performance")
      && performanceKeywords.any (fun k => containsStr t k) then .ok .performance
  else if reviewTypes.contains (s2c "quality")
      && qualityKeywords.any (fun k => containsStr t k) then .error ()
  else if reviewTypes.contains (s2c "security") then .ok .security
  else if reviewTypes.contains (s2c "accessibility") then .ok .accessibility
  else if reviewTypes.contains (s2c "performance") then .ok .performance
  else if reviewTypes.contains (s2c "quality") then .error ()
  else .ok .security

/-- `DTOConverter._convert_single_issue_to_dto`. -/
def convertSingleIssue (i : Issue) (reviewTypes : List Str) :
    Except Unit IssueDTO :=
  match determineReviewType i reviewTypes with
  | .error e => .error e
  | .ok rt =>
    .ok { issue := if i.issue.isEmpty then s2c "Unknown issue" else i.issue,
          severity := parse_severity
            (if i.severity.isEmpty then s2c "medium" else i.severity),
          confidence := parse_confidence
            (if i.confidence.isEmpty then s2c "50%" else i.confidence),
          line_numbers := parse_line_numbers i.line_number,
          code := i.code,
          suggestion :=
            if i.suggestion.isEmpty then s2c "No suggestion provided"
            else i.suggestion,
          review_type := rt,
          file_path := none }

/-- `[ReviewType(rt) for rt in review_types if rt in [e.value for e in ReviewType]]`. -/
def convertReviewTypes (rts : List Str) : List ReviewType :=
  rts.filterMap ReviewType.fromValue

/-- Append a value to its file group, preserving first-appearance order
(the `files_dict` insertion-ordered dictionary). -/
def groupInsert (groups : List (Str × List IssueDTO)) (key : Str) (v : IssueDTO) :
    List (Str × List IssueDTO) :=
  match groups with
  | [] => [(key, [v])]
  | (k, vs) :: rest =>
    if k == key then (k, vs ++ [v]) :: rest
    else (k, vs) :: groupInsert rest key v

/-- Convert every issue, pairing it with its group key
(`issue.file or "unknown_file"`) and setting `file_path` on the DTO. -/
def convertAll (issues : List Issue) (rts : List Str) :
    Except Unit (List (Str × IssueDTO)) :=
  match issues with
  | [] => .ok []
  | i :: rest =>
    match convertSingleIssue i rts with
    | .error e => .error e
    | .ok d =>
      match convertAll rest rts with
      | .error e => .error e
      | .ok others =>
        let fp := if i.file.isEmpty then s2c "unknown_file" else i.file
        .ok ((fp, { d with file_path := some fp }) :: others)

/-- `DTOConverter.convert_issues_to_dto` (the timestamp is passed in;
`datetime.now` is the excluded I/O collaborator). -/
def convert_issues_to_dto (ts : Str) (issues : List Issue) (rts : List Str) :
    Except Unit AnalysisResultDTO :=
  if issues.isEmpty then
    .ok { files := [], total_issues := 0, analysis_timestamp := ts,
          review_types := convertReviewTypes rts }
  else
    match convertAll issues rts with
    | .error e => .error e
    | .ok pairs =>
      let groups := pairs.foldl (fun g p => groupInsert g p.1 p.2) []
      .ok { files := groups.map (fun g =>
              { file_path := g.1, issues := g.2,
                review_types_analyzed := convertReviewTypes rts }),
            total_issues := Int.ofNat issues.length,
            analysis_timestamp := ts,
            review_types := convertReviewTypes rts }

/-- The parse → filter → convert pipeline of `AIDiffReviewer.run_review`
restricted to its deterministic core. -/
def run_pipeline (ts : Str) (rts : List Str) (gitignoreContent : Str)
    (raw : Str) : Except Unit AnalysisResultDTO :=
  convert_issues_to_dto ts (filter_false_positives gitignoreContent
    (parse_llm_output raw)) rts

/-
==== result_processor.py: file assignment in the aggregation loop ====
-/

/-- `issue_file.split('/')[-1]`. -/
def basenameOf (f : Str) : Str := (splitOnChar '/' f).getLastD []

/-- The per-file test of the partial-match loop in
`LLMResultProcessor._find_matching_file`:
`file_path.endswith('/' + issue_basename) or file_path == issue_basename`. -/
def trailMatchB (f : Str) (fp : Str) : Bool :=
  endsWithB fp ('/' :: basenameOf f) || fp == basenameOf f

/-- `LLMResultProcessor._find_matching_file`. -/
def findMatchingFile (issueFile : Option Str) (available : List Str) :
    Option Str :=
  match issueFile with
  | none => none
  | some f =>
    if f.isEmpty then none
    else if available.contains f then some f
    else
      match available.find? (trailMatchB f) with
      | some fp => some fp
      | none => available.head?

/-- The destination chosen for one issue by the assignment loop in
`LLMResultProcessor.process_llm_response`: exact key match into
`files_dict`, else `_find_matching_file`; `none` means the record is
dropped. -/
def assignIssueFile (fp : Option Str) (filesAnalyzed : List Str) : Option Str :=
  match fp with
  | none => findMatchingFile none filesAnalyzed
  | some f =>
    if !f.isEmpty && filesAnalyzed.contains f then some f
    else findMatchingFile (some f) filesAnalyzed

/-
==== Claim C1: category inference and the missing QUALITY member ====
-/

/-- C1 (code evaluated at the failing input): when the run requests the
"quality" category, the category-inference step reaches
`return ReviewType.QUALITY` — but the `ReviewType` enum imported from
`dto.py` has no `QUALITY` member, so an `AttributeError` is raised instead
of an assignment (modelled as `.error ()`).  Both the keyword-match branch
(description "refactor for readability") and the first-requested-category
fallback branch (empty description) fail this way, refuting the claim's
"this assignment always succeeds and never raises an error". -/
theorem c1_quality_category_raises :
    determineReviewType
      { issue := s2c "refactor for readability", file := s2c "app.py" }
      [s2c "quality"] = .error ()
    ∧ determineReviewType { issue := [], file := s2c "app.py" }
      [s2c "quality"] = .error () := by decide

/-
==== Claim C2: the Block Splitter ====
-/

/-- C2 counterexample: in `"a---b"` the hyphen run is not on a line of its
own, so under the claim both splitting strategies yield zero blocks and the
splitter must return the single block `"a---b"` (the whole trimmed
response).  The code instead splits on `---+` anywhere and produces the two
blocks `"a"` and `"b"`. -/
theorem c2_counterexample :
    ((rawBlocks (s2c "a---b")).map pyStrip).filter (fun b => !b.isEmpty)
      = [s2c "a", s2c "b"]
    ∧ [s2c "a", s2c "b"] ≠ [pyStrip (s2c "a---b")] := by decide

/-- C2 (amended): the parser splits on runs of three or more hyphens
anywhere in the text; when that split yields at least two pieces (empty or
not) those pieces are the candidate blocks, otherwise the `Issue:`-line
split is used; blocks are stripped, an all-whitespace block yields no
record, and when no candidate block survives, the parser emits the single
whole-trimmed-response fallback record. -/
theorem c2_block_splitter (output : Str) :
    (2 ≤ (splitDashes output).length → rawBlocks output = splitDashes output)
    ∧ ((splitDashes output).length ≤ 1 → rawBlocks output = issueSplit output)
    ∧ (∀ b, (pyStrip b).isEmpty = true → processBlock b = none)
    ∧ (((rawBlocks output).map pyStrip).filter (fun b => !b.isEmpty) = [] →
        parse_llm_output output = [fallbackIssue output]) := by
  refine ⟨?_, ?_, ?_, ?_⟩
  · intro h
    unfold rawBlocks
    rw [if_neg (by omega)]
  · intro h
    unfold rawBlocks
    rw [if_pos h]
  · intro b hb
    simp [processBlock, hb]
  · intro h
    have hall : ∀ b ∈ rawBlocks output, (pyStrip b).isEmpty = true := by
      intro b hb
      have h2 := List.filter_eq_nil_iff.mp h (pyStrip b)
        (List.mem_map_of_mem pyStrip hb)
      simpa using h2
    have hnone : ∀ b ∈ rawBlocks output, processBlock b = none := by
      intro b hb
      simp [processBlock, hall b hb]
    unfold parse_llm_output
    rw [List.filterMap_eq_nil_iff.mpr hnone]
    rfl

/-- Witness for C2 at concrete inputs: `"a---b"` has a two-piece hyphen
split which is used as-is, and on `"x"` (no block markers at all) the
whole-response fallback record is emitted. -/
theorem c2_block_splitter_witness :
    rawBlocks (s2c "a---b") = splitDashes (s2c "a---b")
    ∧ parse_llm_output (s2c "x") = [fallbackIssue (s2c "x")] :=
  ⟨(c2_block_splitter (s2c "a---b")).1 (by decide),
   (c2_block_splitter (s2c "x")).2.2.2 (by decide)⟩

/-
==== Claim C3: the placeholder heuristic ====
-/

/-- The placeholder heuristic exactly as the claim words it: the trimmed,
lower-cased value contains both "your" and "key", or contains "example",
or is fully wrapped in angle brackets, or contains "changeme", or contains
"placeholder", or consists solely of letters and underscores containing
"key". -/
def specPlaceholderOrig (value : Str) : Bool :=
  let v := pyLower (pyStrip value)
  containsStr v (s2c "your") && containsStr v (s2c "key")
  || containsStr v (s2c "example")
  || startsWithB v (s2c "<") && endsWithB v (s2c ">")
  || containsStr v (s2c "changeme")
  || containsStr v (s2c "placeholder")
  || (v.all (fun c => isLowerAlphaC c || c == '_') && containsStr v (s2c "key"))

/-- The claim's conditions amended with the extra rule the code applies:
a value that starts with `<` and has a later `>` on its first line is also
a placeholder (`re.match(r'<.*>', value)`). -/
def specPlaceholderAmended (value : Str) : Bool :=
  specPlaceholderOrig value
  || startsWithB (pyLower (pyStrip value)) (s2c "<")
      && (((pyLower (pyStrip value)).drop 1).takeWhile
            (fun c => !(c == '\n'))).contains '>'

/-- C3 counterexample: a record whose `code_snippet` is `"<div> hello"`
satisfies none of the claim's placeholder conditions (in particular it is
not fully wrapped in angle brackets), yet the code drops it, because
`re.match(r'<.*>', value)` only requires a leading `<` with a later `>`. -/
theorem c3_counterexample :
    isFalsePositive
      { issue := s2c "Possible issue", file := s2c "app.py",
        suggestion := s2c "Fix it", code := s2c "<div> hello" } [] = true
    ∧ (specPlaceholderOrig (s2c "Possible issue")
        || specPlaceholderOrig (s2c "Fix it")
        || specPlaceholderOrig (s2c "<div> hello")) = false := by decide

theorem anglePatternB_eq (w : Str) :
    anglePatternB w
      = (startsWithB w (s2c "<")
          && ((w.drop 1).takeWhile (fun c => !(c == '\n'))).contains '>') := by
  cases w with
  | nil => rfl
  | cons c cs =>
    have hs : s2c "<" = ['<'] := rfl
    rw [hs]
    simp only [anglePatternB, startsWithB, Bool.and_true, List.drop_succ_cons,
      List.drop_zero]
    by_cases hc : c = '<'
    · subst hc; simp
    · simp [hc]

/-- C3 (amended): a value is dropped by `_is_placeholder_value` exactly when
the claim's conditions hold or the extra leading-angle-bracket rule fires;
the claim's two examples behave as stated (the `your_api_key_here` record
is dropped, the `password = 'secret123'` record is kept). -/
theorem c3_placeholder_characterization :
    (∀ value : Str, isPlaceholderValue value = specPlaceholderAmended value)
    ∧ isFalsePositive
        { issue := s2c "Hardcoded secret", file := s2c "config.py",
          suggestion := s2c "Remove it",
          code := s2c "API_KEY = 'your_api_key_here'" } [] = true
    ∧ isFalsePositive
        { issue := s2c "Hardcoded secret", file := s2c "config.py",
          suggestion := s2c "Remove it",
          code := s2c "password = 'secret123'" } [] = false := by
  refine ⟨?_, by decide, by decide⟩
  intro value
  cases value with
  | nil => rfl
  | cons c cs =>
    simp only [isPlaceholderValue, specPlaceholderAmended, specPlaceholderOrig,
      keyPatternB, anglePatternB_eq, List.isEmpty_cons, Bool.false_eq_true,
      if_false, Bool.or_assoc]

/-
==== Claim C4: the Normalizer's description field ====
-/

/-- The description rule as the claim words it: the raw `issue` value, or —
when that is empty or absent — the raw block text truncated to 100
characters with an ellipsis suffix if longer. -/
def specDescription (b : Str) (d : IssueData) : Str :=
  match d.issue with
  | some v => if v.isEmpty then truncDesc b else v
  | none => truncDesc b

/-- C4 counterexample: a candidate block with no recognizable labels yields
an empty (falsy) field dictionary, and the loop in `parse_llm_output` then
produces no record at all for it — not a record with the truncated block
text as description, as the claim states. -/
theorem c4_counterexample :
    processBlock (s2c "no recognizable labels here") = none
    ∧ (parseIssueBlock (pyStrip (s2c "no recognizable labels here"))).isEmptyData
        = true := by decide

/-- C4 (amended): a block whose extracted field dictionary is empty yields
no record; for every other (non-whitespace) block the produced record's
description is the raw `issue` value, or the stripped block text truncated
to 100 characters with an ellipsis suffix when the `issue` value is empty
or absent. -/
theorem c4_description_normalization (block : Str) :
    ((parseIssueBlock (pyStrip block)).isEmptyData = true →
      processBlock block = none)
    ∧ ((parseIssueBlock (pyStrip block)).isEmptyData = false →
        ∃ r : Issue, processBlock block = some r
          ∧ r.issue
              = specDescription (pyStrip block) (parseIssueBlock (pyStrip block))) := by
  constructor
  · intro h
    by_cases hb : (pyStrip block).isEmpty = true
    · simp [processBlock, hb]
    · simp [processBlock, hb, h]
  · intro h
    have hb : (pyStrip block).isEmpty = false := by
      by_contra hb'
      have hb2 : (pyStrip block).isEmpty = true := by
        revert hb'; cases (pyStrip block).isEmpty <;> simp
      rw [List.isEmpty_iff.mp hb2] at h
      exact absurd h (by decide)
    have hpb : processBlock block
        = some { issue := specDescription (pyStrip block)
                   (parseIssueBlock (pyStrip block)),
                 file :=
                   match (parseIssueBlock (pyStrip block)).file with
                   | some v => if v.isEmpty then s2c "N/A" else v
                   | none => s2c "N/A",
                 severity := (parseIssueBlock (pyStrip block)).severity.getD [],
                 confidence := (parseIssueBlock (pyStrip block)).confidence.getD [],
                 suggestion := (parseIssueBlock (pyStrip block)).suggestion.getD [],
                 line_number := (parseIssueBlock (pyStrip block)).line_number.getD [],
                 code := (parseIssueBlock (pyStrip block)).code.getD [] } := by
      simp only [processBlock, hb, h, Bool.false_eq_true, if_false, specDescription]
    exact ⟨_, hpb, rfl⟩

/-- Witness for C4 at a concrete block: `"Issue: Bad"` has a non-empty
field dictionary and yields a record whose description follows the rule
(here the raw issue value `"Bad"`). -/
theorem c4_description_normalization_witness :
    ∃ r : Issue, processBlock (s2c "Issue: Bad") = some r
      ∧ r.issue = specDescription (pyStrip (s2c "Issue: Bad"))
          (parseIssueBlock (pyStrip (s2c "Issue: Bad"))) :=
  (c4_description_normalization (s2c "Issue: Bad")).2 (by decide)

/-
==== Claim C5: empty raw response gives an empty result ====
-/

/-- C5: running the pipeline on the empty response string yields a
well-formed result with `total_issues = 0` and no files: the single
synthetic whole-response fallback record is removed by the filter's
no-substantive-field rule, and the converter's empty-list branch builds the
empty aggregate without error, for every requested-category list and every
gitignore content. -/
theorem c5_empty_response_zero_issues (ts : Str) (rts : List Str)
    (gitignoreContent : Str) :
    run_pipeline ts rts gitignoreContent []
      = .ok { files := [], total_issues := 0, analysis_timestamp := ts,
              review_types := convertReviewTypes rts } := by
  have h1 : parse_llm_output [] = [fallbackIssue []] := by decide
  have h2 : isRealIssue (fallbackIssue []) = false := by decide
  have h3 : filter_false_positives gitignoreContent (parse_llm_output []) = [] := by
    rw [h1]
    unfold filter_false_positives
    rw [show List.filter
          (fun i => !isFalsePositive i gitignoreContent && isRealIssue i)
          [fallbackIssue []] = [] from by simp [List.filter_cons, h2]]
    rfl
  unfold run_pipeline
  rw [h3]
  rfl

/-
==== Claim C6: file assignment in the Aggregator ====
-/

/-- C6 counterexample: a record with no `file_path` (the `File` field was
absent and no file header preceded the block) is dropped by the assignment
loop even though a file was analyzed — `_find_matching_file` returns `None`
immediately for a falsy path — contradicting the claim that a record is
dropped only when no files were analyzed at all. -/
theorem c6_counterexample :
    assignIssueFile none [s2c "src/app.js"] = none := by decide

/-- C6 (amended): for a record with a non-empty `file_path` and a non-empty
analyzed-files list, the assignment is: the exact match when the path is an
analyzed file; otherwise the first analyzed file matching by trailing path
segment; otherwise the first analyzed file as a last resort — such a record
is never dropped.  (A record with an absent or empty path is dropped even
when files were analyzed, see the counterexample.) -/
theorem c6_file_assignment (f : Str) (files : List Str)
    (hne : files ≠ []) (hf : f ≠ []) :
    (f ∈ files → assignIssueFile (some f) files = some f)
    ∧ (f ∉ files → ∀ m, files.find? (trailMatchB f) = some m →
        assignIssueFile (some f) files = some m)
    ∧ (f ∉ files → files.find? (trailMatchB f) = none →
        assignIssueFile (some f) files = some (files.head hne)) := by
  have hfe : f.isEmpty = false := by
    cases f with
    | nil => exact absurd rfl hf
    | cons c cs => rfl
  refine ⟨?_, ?_, ?_⟩
  · intro hmem
    have hc : files.contains f = true := by
      simpa [List.elem_iff] using hmem
    simp only [assignIssueFile, hfe, hc, Bool.not_false, Bool.and_self, if_true]
  · intro hnm m hm
    have hc : files.contains f = false := by
      rcases hcc : files.contains f with _ | _
      · rfl
      · exact absurd (by simpa [List.elem_iff] using hcc) hnm
    simp [assignIssueFile, findMatchingFile, hfe, hc, hm, hnm]
  · intro hnm hm
    have hc : files.contains f = false := by
      rcases hcc : files.contains f with _ | _
      · rfl
      · exact absurd (by simpa [List.elem_iff] using hcc) hnm
    simp [assignIssueFile, findMatchingFile, hfe, hc, hm, hnm, List.head?_eq_head hne]

/-- Witness for C6 at the claim's own example: a record naming `"app.js"`
with `analyzed_files = ["src/app.js"]` is assigned to `"src/app.js"` by the
trailing-segment match. -/
theorem c6_file_assignment_witness :
    assignIssueFile (some (s2c "app.js")) [s2c "src/app.js"]
      = some (s2c "src/app.js") :=
  (c6_file_assignment (s2c "app.js") [s2c "src/app.js"] (by decide)
      (by decide)).2.1 (by decide) (s2c "src/app.js") (by decide)
